import Mathlib

/-!
Shallow embedding of the SMEfin backend core (account-completion state
model, registration upserts, OTP verification and financing gating),
translated from `src/models/user.go`, `src/handlers/user.go` and the
financing/auth handlers.

Modelling conventions:
* `uuid.UUID` values become `Nat` identifiers; fresh ids produced by
  `uuid.New()` are passed in as explicit parameters.
* `time.Time` becomes `Nat` (seconds); `time.Now()` is an explicit
  parameter.  The 10-minute OTP window of `OTPVerification.Create`
  becomes `600` seconds.
* The SQL store becomes a `Store` of lists of rows; `QueryRow ... WHERE`
  becomes `List.find?`, `UPDATE ... WHERE` becomes a `List.map` over the
  matching rows, `INSERT` appends a row.
* Database I/O errors are not modelled (the list store cannot fail), so
  the `err != nil` branches of the Go code are dropped.
* Handler responses (`utils.SendErrorResponse` / `SendSuccessResponse`)
  become an `HResp` record of success flag, message and HTTP status code.
* `strconv.ParseFloat` / `strconv.Atoi` are modelled for decimal inputs
  (optional sign, digits, optional fractional part); exponent, hex and
  Inf/NaN float syntax are outside the inputs this development uses.
-/

/-- Row of the `users` table (`models.User`). -/
structure User where
  id : Nat
  email : String
  createdAt : Nat
  updatedAt : Nat
deriving Repr, DecidableEq

/-- Row of the `otp_verifications` table (`models.OTPVerification`). -/
structure OTPVerification where
  id : Nat
  email : String
  otp : String
  expiresAt : Nat
  createdAt : Nat
  verified : Bool
deriving Repr, DecidableEq

/-- Row of the `personal_details` table (`models.PersonalDetails`). -/
structure PersonalDetails where
  id : Nat
  userId : Nat
  fullName : String
  email : String
  phoneNumber : String
  createdAt : Nat
  updatedAt : Nat
deriving Repr, DecidableEq

/-- Row of the `business_details` table (`models.BusinessDetails`). -/
structure BusinessDetails where
  id : Nat
  userId : Nat
  businessName : String
  tradeLicenseNumber : String
  createdAt : Nat
  updatedAt : Nat
deriving Repr, DecidableEq

/-- Row of the `trade_licenses` table (`models.TradeLicense`). -/
structure TradeLicense where
  id : Nat
  userId : Nat
  filename : String
  fileURL : String
  createdAt : Nat
  updatedAt : Nat
deriving Repr, DecidableEq

/-- Row of the `financing_requests` table (`models.FinancingRequest`).
Amounts are `float64` in Go; decimal amounts are modelled as `Rat`. -/
structure FinancingRequest where
  id : Nat
  userId : Nat
  amount : Rat
  purpose : String
  repaymentPeriod : Int
  status : String
  createdAt : Nat
  updatedAt : Nat
deriving Repr, DecidableEq

/-- The derived projection `models.AccountStatus` (never persisted). -/
structure AccountStatus where
  userId : Nat
  email : String
  status : String
  hasPersonalDetails : Bool
  hasBusinessDetails : Bool
  hasTradeLicense : Bool
  isComplete : Bool
deriving Repr, DecidableEq

/-- The whole relational store: one list of rows per table. -/
structure Store where
  users : List User
  otps : List OTPVerification
  personal : List PersonalDetails
  business : List BusinessDetails
  trade : List TradeLicense
  financing : List FinancingRequest
deriving Repr, DecidableEq

/-- A handler response: `utils.SendSuccessResponse` /
`utils.SendErrorResponse` reduced to success flag, message and status. -/
structure HResp where
  success : Bool
  message : String
  statusCode : Nat
deriving Repr, DecidableEq

/-- Model of `utils.SendErrorResponse w msg code`. -/
def errResp (msg : String) (code : Nat) : HResp := ⟨false, msg, code⟩

/-- Model of `utils.SendSuccessResponse w msg _ code`. -/
def okResp (msg : String) (code : Nat) : HResp := ⟨true, msg, code⟩

/-- Model of `models.GetUserByID`: `SELECT ... FROM users WHERE id = $1`;
`sql.ErrNoRows` becomes `none`. -/
def GetUserByID (s : Store) (id : Nat) : Option User :=
  s.users.find? (fun u => u.id == id)

/-- Model of `models.GetPersonalDetails`: row lookup by `user_id`. -/
def GetPersonalDetails (s : Store) (userID : Nat) : Option PersonalDetails :=
  s.personal.find? (fun p => p.userId == userID)

/-- Model of `models.GetBusinessDetails`: row lookup by `user_id`. -/
def GetBusinessDetails (s : Store) (userID : Nat) : Option BusinessDetails :=
  s.business.find? (fun b => b.userId == userID)

/-- Model of `models.GetTradeLicense`: row lookup by `user_id`. -/
def GetTradeLicense (s : Store) (userID : Nat) : Option TradeLicense :=
  s.trade.find? (fun t => t.userId == userID)

/-- Model of `models.GetAccountStatus` (src/models/user.go, lines 272-315):
resolves the user, then derives the completion projection from the
presence of the three sub-records; `nil, nil` (unknown user) is `none`. -/
def GetAccountStatus (s : Store) (userID : Nat) : Option AccountStatus :=
  match GetUserByID s userID with
  | none => none
  | some user =>
    let hasPD := (GetPersonalDetails s userID).isSome
    let hasBD := (GetBusinessDetails s userID).isSome
    let hasTL := (GetTradeLicense s userID).isSome
    let complete := hasPD && hasBD && hasTL
    some
      { userId := userID
        email := user.email
        status := if complete then "old" else "new"
        hasPersonalDetails := hasPD
        hasBusinessDetails := hasBD
        hasTradeLicense := hasTL
        isComplete := complete }

/-- Numeric value of a digit list (most significant first). -/
def decDigits (cs : List Char) : Nat :=
  cs.foldl (fun a c => a * 10 + (c.toNat - 48)) 0

/-- All characters are ASCII decimal digits. -/
def allDigits (cs : List Char) : Bool :=
  cs.all Char.isDigit

/-- Digit-string parser: nonempty all-digit input, else `none`. -/
def parseNat? (cs : List Char) : Option Nat :=
  if cs.isEmpty then none
  else if allDigits cs then some (decDigits cs) else none

/-- Model of `strconv.Atoi`: optional sign followed by decimal digits. -/
def parseInt? (s : String) : Option Int :=
  match s.data with
  | '-' :: rest => (parseNat? rest).map (fun n => -(n : Int))
  | '+' :: rest => (parseNat? rest).map (fun n => (n : Int))
  | cs => (parseNat? cs).map (fun n => (n : Int))

/-- Split a character list at every occurrence of `sep` (the pieces do
not contain `sep`; n separators yield n+1 pieces, as `strings.Split`). -/
def splitOnChar (sep : Char) : List Char → List (List Char)
  | [] => [[]]
  | c :: cs =>
    let r := splitOnChar sep cs
    if c == sep then [] :: r
    else
      match r with
      | [] => [[c]]
      | h :: t => (c :: h) :: t

/-- Model of `strconv.ParseFloat` on decimal inputs: optional sign, digits,
optional fractional part (exponent/hex/Inf/NaN syntax not modelled). -/
def parseFloat? (s : String) : Option Rat :=
  let signBody : Bool × List Char :=
    match s.data with
    | '-' :: rest => (true, rest)
    | '+' :: rest => (false, rest)
    | cs => (false, cs)
  let body := signBody.2
  let val? : Option Rat :=
    match splitOnChar '.' body with
    | [ip] => (parseNat? ip).map (fun n => (n : Rat))
    | [ip, fp] =>
        if (ip ++ fp).isEmpty then none
        else if allDigits (ip ++ fp) then
          some ((decDigits ip : Rat) +
            (decDigits fp : Rat) / ((10 : Rat) ^ fp.length))
        else none
    | _ => none
  val?.map (fun v => if signBody.1 then -v else v)

/-- The parsed body of `POST /financing/request`
(`handlers.FinancingRequestRequest`): all three fields arrive as
strings. -/
structure FinancingRequestRequest where
  amount : String
  purpose : String
  repaymentPeriod : String
deriving Repr, DecidableEq

/-- Model of `models.FinancingRequest.Create` (src/models/user.go, lines
349-361): assigns a fresh id and timestamps, defaults the status to
`"pending"` when empty, and inserts the row. -/
def FinancingRequest.Create (s : Store) (userId : Nat) (amount : Rat)
    (purpose : String) (repaymentPeriod : Int) (status : String)
    (newID now : Nat) : Store × FinancingRequest :=
  let st := if status = "" then "pending" else status
  let fr : FinancingRequest :=
    ⟨newID, userId, amount, purpose, repaymentPeriod, st, now, now⟩
  ({ s with financing := s.financing ++ [fr] }, fr)

/-- Model of `FinancingHandler.RequestFinancing` (src/unnamed/part_003, lines
35-129) after the method/auth/body-parsing boundary: the completion
check, the three input validations in order, and the insert.  `uuid.New`
and `time.Now` become the `newID` and `now` parameters. -/
def RequestFinancing (s : Store) (userID : Nat)
    (req : FinancingRequestRequest) (newID now : Nat) : Store × HResp :=
  match GetAccountStatus s userID with
  | none =>
      (s, errResp "Please complete your registration before requesting financing" 400)
  | some accountStatus =>
    if accountStatus.isComplete = false then
      (s, errResp "Please complete your registration before requesting financing" 400)
    else if req.amount = "" then
      (s, errResp "Amount is required" 400)
    else
      match parseFloat? req.amount with
      | none => (s, errResp "Invalid amount. Must be a positive number" 400)
      | some amount =>
        if amount ≤ 0 then
          (s, errResp "Invalid amount. Must be a positive number" 400)
        else if req.purpose = "" then
          (s, errResp "Purpose is required" 400)
        else if req.repaymentPeriod = "" then
          (s, errResp "Repayment period is required" 400)
        else
          match parseInt? req.repaymentPeriod with
          | none =>
              (s, errResp "Invalid repayment period. Must be a positive number of months" 400)
          | some repaymentPeriod =>
            if repaymentPeriod ≤ 0 then
              (s, errResp "Invalid repayment period. Must be a positive number of months" 400)
            else
              ((FinancingRequest.Create s userID amount req.purpose
                  repaymentPeriod "pending" newID now).1,
               okResp "Financing request submitted successfully" 201)

/-- C1: for every store state and every account id that resolves to an
existing account, the completion projection returned by
`GetAccountStatus` has `isComplete` true iff all three sub-records
(personal details, business details, trade license) are present, and
`status` is `"old"` iff `isComplete` (otherwise `"new"`).  Quantifying
over all stores covers every reachable state, hence every order of the
three upserts. -/
theorem getAccountStatus_complete_iff_and_status
    (s : Store) (userID : Nat) (st : AccountStatus)
    (h : GetAccountStatus s userID = some st) :
    (st.isComplete = true ↔
      ((GetPersonalDetails s userID).isSome = true ∧
       (GetBusinessDetails s userID).isSome = true ∧
       (GetTradeLicense s userID).isSome = true)) ∧
    (st.status = "old" ↔ st.isComplete = true) ∧
    (st.isComplete = false → st.status = "new") := by
  unfold GetAccountStatus at h
  cases hu : GetUserByID s userID with
  | none => rw [hu] at h; cases h
  | some user =>
    rw [hu] at h
    simp only [Option.some.injEq] at h
    subst h
    cases hP : (GetPersonalDetails s userID).isSome <;>
      cases hB : (GetBusinessDetails s userID).isSome <;>
        cases hT : (GetTradeLicense s userID).isSome <;>
          simp [hP, hB, hT]

/-- Concrete instantiation of the completion-projection theorem: a store
holding one user with personal and business details but no trade license
yields `isComplete = false` and status `"new"`. -/
theorem getAccountStatus_complete_iff_and_status_witness :
    GetAccountStatus
      { users := [⟨1, "a@b.com", 0, 0⟩]
        otps := []
        personal := [⟨10, 1, "A", "a@b.com", "0123456789", 0, 0⟩]
        business := [⟨11, 1, "Biz", "TL-1", 0, 0⟩]
        trade := []
        financing := [] } 1 =
      some ⟨1, "a@b.com", "new", true, true, false, false⟩ ∧
    (("new" : String) = "old" ↔ (false : Bool) = true) := by
  refine ⟨by rfl, ?_⟩
  have h := getAccountStatus_complete_iff_and_status
    { users := [⟨1, "a@b.com", 0, 0⟩]
      otps := []
      personal := [⟨10, 1, "A", "a@b.com", "0123456789", 0, 0⟩]
      business := [⟨11, 1, "Biz", "TL-1", 0, 0⟩]
      trade := []
      financing := [] } 1
    ⟨1, "a@b.com", "new", true, true, false, false⟩ (by rfl)
  exact h.2.1

/-- C2: whenever the completion projection is absent (unknown account)
or has `isComplete = false`, submitting a financing request fails with
the precondition error (HTTP 400, "Please complete your registration
before requesting financing") and leaves the store — in particular the
financing ledger — unchanged, for every request body, so the check
precedes all input validation and persistence. -/
theorem requestFinancing_incomplete_gated
    (s : Store) (userID : Nat) (req : FinancingRequestRequest)
    (newID now : Nat)
    (h : GetAccountStatus s userID = none ∨
      ∃ st, GetAccountStatus s userID = some st ∧ st.isComplete = false) :
    RequestFinancing s userID req newID now =
      (s, errResp "Please complete your registration before requesting financing" 400) := by
  unfold RequestFinancing
  rcases h with h | ⟨st, hst, hc⟩
  · rw [h]
  · rw [hst]
    simp [hc]

/-- Concrete instantiation of the gating theorem: an account with
personal and business details but no trade license (2 of 3 present) is
rejected with the precondition error even for a fully valid request
body, and the store is unchanged. -/
theorem requestFinancing_incomplete_gated_witness :
    RequestFinancing
      { users := [⟨1, "a@b.com", 0, 0⟩]
        otps := []
        personal := [⟨10, 1, "A", "a@b.com", "0123456789", 0, 0⟩]
        business := [⟨11, 1, "Biz", "TL-1", 0, 0⟩]
        trade := []
        financing := [] } 1 ⟨"100", "stock", "12"⟩ 7 5 =
      ({ users := [⟨1, "a@b.com", 0, 0⟩]
         otps := []
         personal := [⟨10, 1, "A", "a@b.com", "0123456789", 0, 0⟩]
         business := [⟨11, 1, "Biz", "TL-1", 0, 0⟩]
         trade := []
         financing := [] },
       errResp "Please complete your registration before requesting financing" 400) :=
  requestFinancing_incomplete_gated _ 1 ⟨"100", "stock", "12"⟩ 7 5
    (Or.inr ⟨⟨1, "a@b.com", "new", true, true, false, false⟩, by rfl, by rfl⟩)

/-- C9: when the account id resolves to no user row at all,
`RequestFinancing` returns the same precondition response (HTTP 400,
"Please complete your registration before requesting financing") as an
incomplete account — not a 404 — because the `nil` completion
projection is collapsed into the incomplete-registration branch. -/
theorem requestFinancing_unknown_account_precondition
    (s : Store) (userID : Nat) (req : FinancingRequestRequest)
    (newID now : Nat)
    (h : GetUserByID s userID = none) :
    RequestFinancing s userID req newID now =
      (s, errResp "Please complete your registration before requesting financing" 400) := by
  unfold RequestFinancing GetAccountStatus
  rw [h]

/-- Concrete instantiation of the unknown-account theorem: an empty
store rejects a valid submission with the 400 precondition response. -/
theorem requestFinancing_unknown_account_precondition_witness :
    RequestFinancing
      { users := [], otps := [], personal := [], business := [],
        trade := [], financing := [] } 1 ⟨"100", "stock", "12"⟩ 7 5 =
      ({ users := [], otps := [], personal := [], business := [],
         trade := [], financing := [] },
       errResp "Please complete your registration before requesting financing" 400) :=
  requestFinancing_unknown_account_precondition _ 1 ⟨"100", "stock", "12"⟩ 7 5
    (by rfl)

/-- The shared check-then-insert-or-update skeleton of the three
`CreateOrUpdate` methods (src/models/user.go): probe for a row whose
key column equals `uid`; if absent, insert `mk`; if present, run the SQL
`UPDATE ... WHERE user_id = uid`, i.e. rewrite every matching row with
`upd`. -/
def upsertBy {α : Type} (l : List α) (key : α → Nat) (uid : Nat)
    (mk : α) (upd : α → α) : List α :=
  match l.find? (fun p => key p == uid) with
  | none => l ++ [mk]
  | some _ => l.map (fun p => if key p == uid then upd p else p)

/-- Model of `PersonalDetails.CreateOrUpdate` (src/models/user.go, lines
158-181): insert a fresh row (new id, both timestamps `now`) when none
exists for the account, otherwise overwrite the domain fields and bump
`updated_at`. -/
def PersonalDetails.CreateOrUpdate (s : Store) (uid : Nat)
    (fullName email phoneNumber : String) (newID now : Nat) : Store :=
  { s with
    personal := upsertBy s.personal (fun p => p.userId) uid
      ⟨newID, uid, fullName, email, phoneNumber, now, now⟩
      (fun p => { p with fullName := fullName, email := email,
                         phoneNumber := phoneNumber, updatedAt := now }) }

/-- Model of `BusinessDetails.CreateOrUpdate` (src/models/user.go, lines
196-219). -/
def BusinessDetails.CreateOrUpdate (s : Store) (uid : Nat)
    (businessName tradeLicenseNumber : String) (newID now : Nat) : Store :=
  { s with
    business := upsertBy s.business (fun p => p.userId) uid
      ⟨newID, uid, businessName, tradeLicenseNumber, now, now⟩
      (fun p => { p with businessName := businessName,
                         tradeLicenseNumber := tradeLicenseNumber,
                         updatedAt := now }) }

/-- Model of `TradeLicense.CreateOrUpdate` (src/models/user.go, lines 234-257). -/
def TradeLicense.CreateOrUpdate (s : Store) (uid : Nat)
    (filename fileURL : String) (newID now : Nat) : Store :=
  { s with
    trade := upsertBy s.trade (fun p => p.userId) uid
      ⟨newID, uid, filename, fileURL, now, now⟩
      (fun p => { p with filename := filename, fileURL := fileURL,
                         updatedAt := now }) }

theorem list_filter_map_comm {α β : Type} (f : α → β) (P : β → Bool)
    (l : List α) :
    (l.map f).filter P = (l.filter (fun a => P (f a))).map f := by
  induction l with
  | nil => rfl
  | cons a t ih =>
    simp only [List.map_cons, List.filter_cons]
    cases h : P (f a) <;> simp [h, ih]

theorem list_map_congr_pt {α β : Type} (f g : α → β) (l : List α)
    (h : ∀ a ∈ l, f a = g a) : l.map f = l.map g := by
  induction l with
  | nil => rfl
  | cons a t ih =>
    simp only [List.map_cons]
    rw [h a (by simp), ih (fun b hb => h b (by simp [hb]))]

/-- After one `upsertBy` on a table holding at most one row for the
account, the table holds exactly one row for the account, and that row
is either the freshly made row or the update of a previous row. -/
theorem upsertBy_filter_single {α : Type} (l : List α) (key : α → Nat)
    (uid : Nat) (mk : α) (upd : α → α)
    (hmk : key mk = uid) (hupd : ∀ p, key (upd p) = key p)
    (hle : (l.filter (fun p => key p == uid)).length ≤ 1) :
    ∃ r, (upsertBy l key uid mk upd).filter (fun p => key p == uid) = [r] ∧
      (r = mk ∨ ∃ q, q ∈ l ∧ r = upd q) := by
  unfold upsertBy
  cases hf : l.find? (fun p => key p == uid) with
  | none =>
    refine ⟨mk, ?_, Or.inl rfl⟩
    rw [List.filter_append]
    have h1 : l.filter (fun p => key p == uid) = [] := by
      rw [List.filter_eq_nil_iff]
      intro a ha
      exact List.find?_eq_none.mp hf a ha
    rw [h1]
    simp [hmk]
  | some w =>
    have hwmem : w ∈ l := List.mem_of_find?_eq_some hf
    have hwkey : (key w == uid) = true := by
      simpa using List.find?_some hf
    have hwf : w ∈ l.filter (fun p => key p == uid) :=
      List.mem_filter.mpr ⟨hwmem, hwkey⟩
    have hfl : l.filter (fun p => key p == uid) = [w] := by
      cases hcase : l.filter (fun p => key p == uid) with
      | nil => rw [hcase] at hwf; cases hwf
      | cons x xs =>
        cases xs with
        | nil =>
          rw [hcase] at hwf
          have : w = x := by simpa using hwf
          rw [this]
        | cons y ys =>
          rw [hcase] at hle
          simp at hle
    refine ⟨upd w, ?_, Or.inr ⟨w, hwmem, rfl⟩⟩
    rw [list_filter_map_comm]
    have hcongr : l.filter
        (fun a => ((if key a == uid then upd a else a) |> key) == uid) =
        l.filter (fun p => key p == uid) := by
      apply List.filter_congr
      intro a _
      by_cases hk : (key a == uid) = true
      · simp [hk, hupd]
      · simp [hk]
    simp only [Function.comp] at *
    rw [hcongr, hfl]
    have hkeq : key w = uid := by simpa using hwkey
    simp [hkeq]

/-- On the update branch, `upsertBy` only rewrites matching rows with
`upd`; any projection `g` invariant under `upd` is preserved row by
row. -/
theorem upsertBy_update_map {α β : Type} (l : List α) (key : α → Nat)
    (uid : Nat) (mk : α) (upd : α → α) (w : α) (g : α → β)
    (hfind : l.find? (fun p => key p == uid) = some w)
    (hg : ∀ p, g (upd p) = g p) :
    (upsertBy l key uid mk upd).map g = l.map g := by
  unfold upsertBy
  rw [hfind, List.map_map]
  apply list_map_congr_pt
  intro a _
  by_cases hk : (key a == uid) = true
  · simp [Function.comp, hk, hg]
  · simp [Function.comp, hk]

/-- A store with no rows at all, used as a concrete starting state. -/
def emptyStore : Store := ⟨[], [], [], [], [], []⟩

/-- C3: for every account and every sub-record kind, upserting twice in
sequence with two payloads — starting from any state obeying the
at-most-one-row-per-account invariant — leaves exactly one sub-record
for the account, and it carries the second payload's field values. -/
theorem upsert_twice_last_write_wins
    (s : Store) (uid : Nat)
    (fn1 em1 ph1 fn2 em2 ph2 bn1 tln1 bn2 tln2 fl1 url1 fl2 url2 : String)
    (idA idB idC idD idE idF t1 t2 : Nat)
    (hp : (s.personal.filter (fun p => p.userId == uid)).length ≤ 1)
    (hb : (s.business.filter (fun b => b.userId == uid)).length ≤ 1)
    (ht : (s.trade.filter (fun t => t.userId == uid)).length ≤ 1) :
    (∃ r, (PersonalDetails.CreateOrUpdate
        (PersonalDetails.CreateOrUpdate s uid fn1 em1 ph1 idA t1)
        uid fn2 em2 ph2 idB t2).personal.filter
          (fun p => p.userId == uid) = [r] ∧
      r.fullName = fn2 ∧ r.email = em2 ∧ r.phoneNumber = ph2) ∧
    (∃ r, (BusinessDetails.CreateOrUpdate
        (BusinessDetails.CreateOrUpdate s uid bn1 tln1 idC t1)
        uid bn2 tln2 idD t2).business.filter
          (fun b => b.userId == uid) = [r] ∧
      r.businessName = bn2 ∧ r.tradeLicenseNumber = tln2) ∧
    (∃ r, (TradeLicense.CreateOrUpdate
        (TradeLicense.CreateOrUpdate s uid fl1 url1 idE t1)
        uid fl2 url2 idF t2).trade.filter
          (fun t => t.userId == uid) = [r] ∧
      r.filename = fl2 ∧ r.fileURL = url2) := by
  refine ⟨?_, ?_, ?_⟩
  · obtain ⟨r1, hr1, _⟩ := upsertBy_filter_single s.personal
      (fun p => p.userId) uid ⟨idA, uid, fn1, em1, ph1, t1, t1⟩
      (fun p => { p with fullName := fn1, email := em1,
                         phoneNumber := ph1, updatedAt := t1 })
      rfl (fun p => rfl) hp
    obtain ⟨r2, hr2, hc2⟩ := upsertBy_filter_single
      (upsertBy s.personal (fun p => p.userId) uid
        ⟨idA, uid, fn1, em1, ph1, t1, t1⟩
        (fun p => { p with fullName := fn1, email := em1,
                           phoneNumber := ph1, updatedAt := t1 }))
      (fun p => p.userId) uid ⟨idB, uid, fn2, em2, ph2, t2, t2⟩
      (fun p => { p with fullName := fn2, email := em2,
                         phoneNumber := ph2, updatedAt := t2 })
      rfl (fun p => rfl) (by rw [hr1]; simp)
    exact ⟨r2, hr2, by rcases hc2 with rfl | ⟨q, hq, rfl⟩ <;> simp⟩
  · obtain ⟨r1, hr1, _⟩ := upsertBy_filter_single s.business
      (fun b => b.userId) uid ⟨idC, uid, bn1, tln1, t1, t1⟩
      (fun b => { b with businessName := bn1,
                         tradeLicenseNumber := tln1, updatedAt := t1 })
      rfl (fun b => rfl) hb
    obtain ⟨r2, hr2, hc2⟩ := upsertBy_filter_single
      (upsertBy s.business (fun b => b.userId) uid
        ⟨idC, uid, bn1, tln1, t1, t1⟩
        (fun b => { b with businessName := bn1,
                           tradeLicenseNumber := tln1, updatedAt := t1 }))
      (fun b => b.userId) uid ⟨idD, uid, bn2, tln2, t2, t2⟩
      (fun b => { b with businessName := bn2,
                         tradeLicenseNumber := tln2, updatedAt := t2 })
      rfl (fun b => rfl) (by rw [hr1]; simp)
    exact ⟨r2, hr2, by rcases hc2 with rfl | ⟨q, hq, rfl⟩ <;> simp⟩
  · obtain ⟨r1, hr1, _⟩ := upsertBy_filter_single s.trade
      (fun t => t.userId) uid ⟨idE, uid, fl1, url1, t1, t1⟩
      (fun t => { t with filename := fl1, fileURL := url1,
                         updatedAt := t1 })
      rfl (fun t => rfl) ht
    obtain ⟨r2, hr2, hc2⟩ := upsertBy_filter_single
      (upsertBy s.trade (fun t => t.userId) uid
        ⟨idE, uid, fl1, url1, t1, t1⟩
        (fun t => { t with filename := fl1, fileURL := url1,
                           updatedAt := t1 }))
      (fun t => t.userId) uid ⟨idF, uid, fl2, url2, t2, t2⟩
      (fun t => { t with filename := fl2, fileURL := url2,
                         updatedAt := t2 })
      rfl (fun t => rfl) (by rw [hr1]; simp)
    exact ⟨r2, hr2, by rcases hc2 with rfl | ⟨q, hq, rfl⟩ <;> simp⟩

/-- Concrete instantiation of last-write-wins: starting from the empty
store, two upserts of each kind leave exactly one row per kind for
account 1, carrying the second payload. -/
theorem upsert_twice_last_write_wins_witness :
    (∃ r, (PersonalDetails.CreateOrUpdate
        (PersonalDetails.CreateOrUpdate emptyStore 1 "A" "a@b.com" "0111111111" 2 10)
        1 "B" "b@c.com" "0222222222" 3 20).personal.filter
          (fun p => p.userId == 1) = [r] ∧
      r.fullName = "B" ∧ r.email = "b@c.com" ∧ r.phoneNumber = "0222222222") ∧
    (∃ r, (BusinessDetails.CreateOrUpdate
        (BusinessDetails.CreateOrUpdate emptyStore 1 "Biz1" "TL1" 4 10)
        1 "Biz2" "TL2" 5 20).business.filter
          (fun b => b.userId == 1) = [r] ∧
      r.businessName = "Biz2" ∧ r.tradeLicenseNumber = "TL2") ∧
    (∃ r, (TradeLicense.CreateOrUpdate
        (TradeLicense.CreateOrUpdate emptyStore 1 "f1.pdf" "u1" 6 10)
        1 "f2.pdf" "u2" 7 20).trade.filter
          (fun t => t.userId == 1) = [r] ∧
      r.filename = "f2.pdf" ∧ r.fileURL = "u2") :=
  upsert_twice_last_write_wins emptyStore 1 "A" "a@b.com" "0111111111"
    "B" "b@c.com" "0222222222" "Biz1" "TL1" "Biz2" "TL2"
    "f1.pdf" "u1" "f2.pdf" "u2" 2 3 4 5 6 7 10 20
    (by decide) (by decide) (by decide)

/-- C10: on the update branch of each sub-record upsert (a row of that
kind already exists for the account, independently of the other two
kinds), every row's id and creation timestamp are unchanged: the
row-wise projection to `(id, created_at)` of that table is identical
before and after. -/
theorem upsert_update_preserves_identity
    (s : Store) (uid : Nat) (fn em ph bn tln fln url : String)
    (pdID bdID tlID now : Nat) :
    (∀ w : PersonalDetails,
      s.personal.find? (fun p => p.userId == uid) = some w →
      (PersonalDetails.CreateOrUpdate s uid fn em ph pdID now).personal.map
          (fun p => (p.id, p.createdAt)) =
        s.personal.map (fun p => (p.id, p.createdAt))) ∧
    (∀ w : BusinessDetails,
      s.business.find? (fun b => b.userId == uid) = some w →
      (BusinessDetails.CreateOrUpdate s uid bn tln bdID now).business.map
          (fun b => (b.id, b.createdAt)) =
        s.business.map (fun b => (b.id, b.createdAt))) ∧
    (∀ w : TradeLicense,
      s.trade.find? (fun t => t.userId == uid) = some w →
      (TradeLicense.CreateOrUpdate s uid fln url tlID now).trade.map
          (fun t => (t.id, t.createdAt)) =
        s.trade.map (fun t => (t.id, t.createdAt))) := by
  refine ⟨?_, ?_, ?_⟩
  · intro w hw
    exact upsertBy_update_map s.personal (fun p => p.userId) uid
      ⟨pdID, uid, fn, em, ph, now, now⟩
      (fun p => { p with fullName := fn, email := em,
                         phoneNumber := ph, updatedAt := now })
      w (fun p => (p.id, p.createdAt)) hw (fun p => rfl)
  · intro w hw
    exact upsertBy_update_map s.business (fun b => b.userId) uid
      ⟨bdID, uid, bn, tln, now, now⟩
      (fun b => { b with businessName := bn,
                         tradeLicenseNumber := tln, updatedAt := now })
      w (fun b => (b.id, b.createdAt)) hw (fun b => rfl)
  · intro w hw
    exact upsertBy_update_map s.trade (fun t => t.userId) uid
      ⟨tlID, uid, fln, url, now, now⟩
      (fun t => { t with filename := fln, fileURL := url,
                         updatedAt := now })
      w (fun t => (t.id, t.createdAt)) hw (fun t => rfl)

/-- Concrete instantiation of the identity-preservation theorem at
partially registered accounts: each store holds only the one sub-record
kind being upserted again (no row of the other two kinds exists), and
the repeat upsert keeps that row's id and creation timestamp. -/
theorem upsert_update_preserves_identity_witness :
    (PersonalDetails.CreateOrUpdate
      { users := [⟨1, "a@b.com", 0, 0⟩]
        otps := []
        personal := [⟨10, 1, "A", "a@b.com", "0111111111", 3, 3⟩]
        business := []
        trade := []
        financing := [] } 1 "B" "b@c.com" "0222222222" 20 99).personal.map
        (fun p => (p.id, p.createdAt)) = [(10, 3)] ∧
    (BusinessDetails.CreateOrUpdate
      { users := [⟨1, "a@b.com", 0, 0⟩]
        otps := []
        personal := []
        business := [⟨11, 1, "Biz", "TL-1", 4, 4⟩]
        trade := []
        financing := [] } 1 "Biz2" "TL-2" 21 99).business.map
        (fun b => (b.id, b.createdAt)) = [(11, 4)] ∧
    (TradeLicense.CreateOrUpdate
      { users := [⟨1, "a@b.com", 0, 0⟩]
        otps := []
        personal := []
        business := []
        trade := [⟨12, 1, "f.pdf", "u", 5, 5⟩]
        financing := [] } 1 "g.pdf" "u2" 22 99).trade.map
        (fun t => (t.id, t.createdAt)) = [(12, 5)] :=
  ⟨(upsert_update_preserves_identity
      { users := [⟨1, "a@b.com", 0, 0⟩]
        otps := []
        personal := [⟨10, 1, "A", "a@b.com", "0111111111", 3, 3⟩]
        business := []
        trade := []
        financing := [] } 1 "B" "b@c.com" "0222222222" "Biz2" "TL-2"
      "g.pdf" "u2" 20 21 22 99).1
    ⟨10, 1, "A", "a@b.com", "0111111111", 3, 3⟩ (by rfl),
   (upsert_update_preserves_identity
      { users := [⟨1, "a@b.com", 0, 0⟩]
        otps := []
        personal := []
        business := [⟨11, 1, "Biz", "TL-1", 4, 4⟩]
        trade := []
        financing := [] } 1 "B" "b@c.com" "0222222222" "Biz2" "TL-2"
      "g.pdf" "u2" 20 21 22 99).2.1
    ⟨11, 1, "Biz", "TL-1", 4, 4⟩ (by rfl),
   (upsert_update_preserves_identity
      { users := [⟨1, "a@b.com", 0, 0⟩]
        otps := []
        personal := []
        business := []
        trade := [⟨12, 1, "f.pdf", "u", 5, 5⟩]
        financing := [] } 1 "B" "b@c.com" "0222222222" "Biz2" "TL-2"
      "g.pdf" "u2" 20 21 22 99).2.2
    ⟨12, 1, "f.pdf", "u", 5, 5⟩ (by rfl)⟩

/-- Character class `[a-zA-Z0-9._%+\-]` of the local part of
`utils.ValidateEmail`. -/
def isEmailLocalChar (c : Char) : Bool :=
  c.isAlpha || c.isDigit || c == '.' || c == '_' || c == '%' ||
    c == '+' || c == '-'

/-- Character class `[a-zA-Z0-9.\-]` of the domain part of
`utils.ValidateEmail`. -/
def isEmailDomainChar (c : Char) : Bool :=
  c.isAlpha || c.isDigit || c == '.' || c == '-'

/-- Model of `utils.ValidateEmail` (src/utils/validator.go): matching against
`^[a-zA-Z0-9._%+\-]+@[a-zA-Z0-9.\-]+\.[a-zA-Z]{2,}$`.  Since no class
contains `@` the string needs exactly one `@`, and since the trailing
`[a-zA-Z]{2,}` admits no dot, only the split at the domain's last dot
can match, so the regex is decided deterministically: nonempty local
part over its class, a nonempty domain body over its class, a final dot
and an all-alphabetic TLD of length at least 2. -/
def ValidateEmail (email : String) : Bool :=
  match splitOnChar '@' email.data with
  | [localPart, domain] =>
    let parts := splitOnChar '.' domain
    !localPart.isEmpty && localPart.all isEmailLocalChar &&
    decide (2 ≤ parts.length) &&
    (decide (3 ≤ parts.length) || !(parts.headD []).isEmpty) &&
    parts.dropLast.all (fun p => p.all isEmailDomainChar) &&
    decide (2 ≤ (parts.getLastD []).length) &&
    (parts.getLastD []).all Char.isAlpha
  | _ => false

/-- Model of `utils.ValidatePhone` (src/utils/validator.go): strip spaces,
hyphens and parentheses, then require 10-15 decimal digits. -/
def ValidatePhone (phone : String) : Bool :=
  let cleaned := phone.data.filter
    (fun c => c != ' ' && c != '-' && c != '(' && c != ')')
  allDigits cleaned && decide (10 ≤ cleaned.length) &&
    decide (cleaned.length ≤ 15)

/-- The parsed body of `POST /user/full-registration`
(`handlers.FullRegistrationRequest` with its three sub-payloads). -/
structure PersonalDetailsRequest where
  fullName : String
  email : String
  phoneNumber : String
deriving Repr, DecidableEq

structure BusinessDetailsRequest where
  businessName : String
  tradeLicenseNumber : String
deriving Repr, DecidableEq

structure TradeLicenseRequest where
  filename : String
  fileURL : String
deriving Repr, DecidableEq

structure FullRegistrationRequest where
  personal : PersonalDetailsRequest
  business : BusinessDetailsRequest
  trade : TradeLicenseRequest
deriving Repr, DecidableEq

/-- Model of `UserHandler.FullRegistration` (src/handlers/user.go, lines
171-356) on the JSON path, after the method/auth/body-parsing boundary:
the nine field validations in source order, then the three upserts. -/
def FullRegistration (s : Store) (userID : Nat)
    (req : FullRegistrationRequest) (pdID bdID tlID now : Nat) :
    Store × HResp :=
  if req.personal.fullName = "" then
    (s, errResp "Full name is required" 400)
  else if req.personal.email = "" then
    (s, errResp "Email is required" 400)
  else if ValidateEmail req.personal.email = false then
    (s, errResp "Invalid email format" 400)
  else if req.personal.phoneNumber = "" then
    (s, errResp "Phone number is required" 400)
  else if ValidatePhone req.personal.phoneNumber = false then
    (s, errResp "Invalid phone number format" 400)
  else if req.business.businessName = "" then
    (s, errResp "Business name is required" 400)
  else if req.business.tradeLicenseNumber = "" then
    (s, errResp "Trade license number is required" 400)
  else if req.trade.filename = "" then
    (s, errResp "Filename is required" 400)
  else if req.trade.fileURL = "" then
    (s, errResp "File URL is required (or upload a file)" 400)
  else
    let s1 := PersonalDetails.CreateOrUpdate s userID
      req.personal.fullName req.personal.email req.personal.phoneNumber
      pdID now
    let s2 := BusinessDetails.CreateOrUpdate s1 userID
      req.business.businessName req.business.tradeLicenseNumber bdID now
    let s3 := TradeLicense.CreateOrUpdate s2 userID
      req.trade.filename req.trade.fileURL tlID now
    (s3, okResp "Full registration saved successfully" 200)

theorem fullRegistration_cases (s : Store) (userID : Nat)
    (req : FullRegistrationRequest) (pdID bdID tlID now : Nat) :
    (FullRegistration s userID req pdID bdID tlID now).2.success = true ∨
    (FullRegistration s userID req pdID bdID tlID now).1 = s := by
  unfold FullRegistration
  repeat' split
  all_goals simp [errResp, okResp]

/-- C6: whenever `FullRegistration` rejects the request (any of the
field validations fails, so the response is not a success), none of the
three upserts has run: the store is returned unchanged. -/
theorem fullRegistration_validation_failure_frame
    (s : Store) (userID : Nat) (req : FullRegistrationRequest)
    (pdID bdID tlID now : Nat)
    (h : (FullRegistration s userID req pdID bdID tlID now).2.success = false) :
    (FullRegistration s userID req pdID bdID tlID now).1 = s := by
  rcases fullRegistration_cases s userID req pdID bdID tlID now with ht | hs
  · rw [ht] at h; cases h
  · exact hs

/-- Concrete instantiation of the validation-failure frame theorem: a
JSON request with a malformed email is rejected and none of the three
sub-records is created. -/
theorem fullRegistration_validation_failure_frame_witness :
    (FullRegistration emptyStore 1
      ⟨⟨"Alice", "not-an-email", "0111111111"⟩, ⟨"Biz", "TL-1"⟩,
        ⟨"f.pdf", "http://u"⟩⟩ 2 3 4 5).1 = emptyStore :=
  fullRegistration_validation_failure_frame emptyStore 1
    ⟨⟨"Alice", "not-an-email", "0111111111"⟩, ⟨"Biz", "TL-1"⟩,
      ⟨"f.pdf", "http://u"⟩⟩ 2 3 4 5 (by rfl)

/-- C7: for a complete account, `RequestFinancing` validates amount,
then purpose, then repayment period, in that order, failing with the
message of the first violated field; in particular `amount = "-5"`
fails with 400 "Invalid amount. Must be a positive number" for every
purpose and repayment period, with the store unchanged; and on every
successful submission the financing ledger grows by exactly one
request whose status is `"pending"`. -/
theorem requestFinancing_validation_order_and_pending
    (s : Store) (userID : Nat) (st : AccountStatus) (newID now : Nat)
    (hst : GetAccountStatus s userID = some st)
    (hc : st.isComplete = true) :
    (∀ purpose repayment,
      RequestFinancing s userID ⟨"-5", purpose, repayment⟩ newID now =
        (s, errResp "Invalid amount. Must be a positive number" 400)) ∧
    (∀ (req : FinancingRequestRequest) (a : Rat),
      parseFloat? req.amount = some a → a ≤ 0 → req.amount ≠ "" →
      RequestFinancing s userID req newID now =
        (s, errResp "Invalid amount. Must be a positive number" 400)) ∧
    (∀ (req : FinancingRequestRequest) (a : Rat),
      parseFloat? req.amount = some a → 0 < a → req.amount ≠ "" →
      req.purpose = "" →
      RequestFinancing s userID req newID now =
        (s, errResp "Purpose is required" 400)) ∧
    (∀ (req : FinancingRequestRequest) (a : Rat),
      parseFloat? req.amount = some a → 0 < a → req.amount ≠ "" →
      req.purpose ≠ "" → req.repaymentPeriod ≠ "" →
      (∀ rp, parseInt? req.repaymentPeriod = some rp → rp ≤ 0) →
      RequestFinancing s userID req newID now =
        (s, errResp "Invalid repayment period. Must be a positive number of months" 400)) ∧
    (∀ req : FinancingRequestRequest,
      (RequestFinancing s userID req newID now).2.success = true →
      ∃ fr, (RequestFinancing s userID req newID now).1.financing =
          s.financing ++ [fr] ∧ fr.status = "pending") := by
  have key : ∀ (req : FinancingRequestRequest) (a : Rat),
      parseFloat? req.amount = some a → a ≤ 0 → req.amount ≠ "" →
      RequestFinancing s userID req newID now =
        (s, errResp "Invalid amount. Must be a positive number" 400) := by
    intro req a hpa hle hne
    simp [RequestFinancing, hst, hc, hpa, hne, hle]
  refine ⟨?_, key, ?_, ?_, ?_⟩
  · intro purpose repayment
    exact key ⟨"-5", purpose, repayment⟩ (-5)
      (by show parseFloat? "-5" = some (-5); decide) (by decide)
      (by show "-5" ≠ ""; decide)
  · intro req a hpa hpos hne hpe
    simp [RequestFinancing, hst, hc, hpa, hne, hpe, not_le.mpr hpos]
  · intro req a hpa hpos hne hpne hrne hrp
    cases hpi : parseInt? req.repaymentPeriod with
    | none =>
      simp [RequestFinancing, hst, hc, hpa, hne, hpne, hrne,
        not_le.mpr hpos, hpi]
    | some rp =>
      simp [RequestFinancing, hst, hc, hpa, hne, hpne, hrne,
        not_le.mpr hpos, hpi, hrp rp hpi]
  · intro req hsuc
    unfold RequestFinancing at hsuc ⊢
    rw [hst] at hsuc ⊢
    by_cases he : req.amount = ""
    · simp [hc, he, errResp] at hsuc
    · cases hpa : parseFloat? req.amount with
      | none => simp [hc, he, hpa, errResp] at hsuc
      | some a =>
        by_cases hle : a ≤ 0
        · simp [hc, he, hpa, hle, errResp] at hsuc
        · by_cases hp : req.purpose = ""
          · simp [hc, he, hpa, hle, hp, errResp] at hsuc
          · by_cases hr : req.repaymentPeriod = ""
            · simp [hc, he, hpa, hle, hp, hr, errResp] at hsuc
            · cases hpi : parseInt? req.repaymentPeriod with
              | none =>
                simp [hc, he, hpa, hle, hp, hr, hpi, errResp] at hsuc
              | some rp =>
                by_cases hrle : rp ≤ 0
                · simp [hc, he, hpa, hle, hp, hr, hpi, hrle,
                    errResp] at hsuc
                · refine ⟨⟨newID, userID, a, req.purpose, rp,
                    "pending", now, now⟩, ?_, rfl⟩
                  simp [hc, he, hpa, hle, hp, hr, hpi, hrle,
                    FinancingRequest.Create]

/-- Concrete instantiation of the validation-order theorem: a complete
account submitting `amount = "-5"` gets the invalid-amount error. -/
theorem requestFinancing_validation_order_and_pending_witness :
    RequestFinancing
      { users := [⟨1, "a@b.com", 0, 0⟩]
        otps := []
        personal := [⟨10, 1, "A", "a@b.com", "0111111111", 0, 0⟩]
        business := [⟨11, 1, "Biz", "TL-1", 0, 0⟩]
        trade := [⟨12, 1, "f.pdf", "u", 0, 0⟩]
        financing := [] } 1 ⟨"-5", "stock", "12"⟩ 7 5 =
      ({ users := [⟨1, "a@b.com", 0, 0⟩]
         otps := []
         personal := [⟨10, 1, "A", "a@b.com", "0111111111", 0, 0⟩]
         business := [⟨11, 1, "Biz", "TL-1", 0, 0⟩]
         trade := [⟨12, 1, "f.pdf", "u", 0, 0⟩]
         financing := [] },
       errResp "Invalid amount. Must be a positive number" 400) :=
  (requestFinancing_validation_order_and_pending
    { users := [⟨1, "a@b.com", 0, 0⟩]
      otps := []
      personal := [⟨10, 1, "A", "a@b.com", "0111111111", 0, 0⟩]
      business := [⟨11, 1, "Biz", "TL-1", 0, 0⟩]
      trade := [⟨12, 1, "f.pdf", "u", 0, 0⟩]
      financing := [] } 1
    ⟨1, "a@b.com", "old", true, true, true, true⟩ 7 5
    (by rfl) (by rfl)).1 "stock" "12"

/-- Model of `models.GetFinancingRequestByID` (src/models/user.go, lines
386-397): global lookup by request id, not scoped by account. -/
def GetFinancingRequestByID (s : Store) (id : Nat) :
    Option FinancingRequest :=
  s.financing.find? (fun fr => fr.id == id)

/-- Model of `FinancingHandler.GetFinancingRequest` (src/unnamed/part_003, lines
154-197) after the method/auth/id-parsing boundary: resolve the request
globally by id, 404 when absent, 403 when owned by another account,
else success. -/
def GetFinancingRequest (s : Store) (userID requestID : Nat) : HResp :=
  match GetFinancingRequestByID s requestID with
  | none => errResp "Financing request not found" 404
  | some request =>
    if request.userId ≠ userID then
      errResp "Unauthorized to access this request" 403
    else okResp "Financing request retrieved successfully" 200

/-- C8: request-detail checks existence before ownership: when no
request with the id exists anywhere the response is the 404 not-found
error, and when the request exists but belongs to a different account
the response is the 403 forbidden error (not 404). -/
theorem getFinancingRequest_existence_before_ownership
    (s : Store) (userID requestID : Nat) :
    (GetFinancingRequestByID s requestID = none →
      GetFinancingRequest s userID requestID =
        errResp "Financing request not found" 404) ∧
    (∀ fr, GetFinancingRequestByID s requestID = some fr →
      fr.userId ≠ userID →
      GetFinancingRequest s userID requestID =
        errResp "Unauthorized to access this request" 403) := by
  constructor
  · intro h
    unfold GetFinancingRequest
    rw [h]
  · intro fr h hown
    unfold GetFinancingRequest
    rw [h]
    simp [hown]

/-- Concrete instantiation of the existence-before-ownership theorem:
an unknown request id yields 404; account 2 requesting account 1's
request yields 403. -/
theorem getFinancingRequest_existence_before_ownership_witness :
    GetFinancingRequest
      { users := [⟨1, "a@b.com", 0, 0⟩]
        otps := []
        personal := []
        business := []
        trade := []
        financing := [⟨50, 1, 100, "stock", 12, "pending", 0, 0⟩] }
      2 99 = errResp "Financing request not found" 404 ∧
    GetFinancingRequest
      { users := [⟨1, "a@b.com", 0, 0⟩]
        otps := []
        personal := []
        business := []
        trade := []
        financing := [⟨50, 1, 100, "stock", 12, "pending", 0, 0⟩]}
      2 50 = errResp "Unauthorized to access this request" 403 :=
  ⟨(getFinancingRequest_existence_before_ownership
      { users := [⟨1, "a@b.com", 0, 0⟩]
        otps := []
        personal := []
        business := []
        trade := []
        financing := [⟨50, 1, 100, "stock", 12, "pending", 0, 0⟩] }
      2 99).1 (by rfl),
   (getFinancingRequest_existence_before_ownership
      { users := [⟨1, "a@b.com", 0, 0⟩]
        otps := []
        personal := []
        business := []
        trade := []
        financing := [⟨50, 1, 100, "stock", 12, "pending", 0, 0⟩] }
      2 50).2 ⟨50, 1, 100, "stock", 12, "pending", 0, 0⟩ (by rfl)
      (by decide)⟩

/-- The row predicate of the `models.VerifyOTP` query:
`WHERE email = $1 AND otp = $2 AND verified = false`. -/
def otpMatches (email otp : String) (r : OTPVerification) : Bool :=
  r.email == email && r.otp == otp && r.verified == false

/-- Model of `ORDER BY created_at DESC LIMIT 1` over the matching rows: the row
with the greatest `created_at` (ties keep the earlier row; SQL leaves
the tie order unspecified). -/
def maxByCreated (ms : List OTPVerification) : Option OTPVerification :=
  ms.foldl (fun acc r =>
    match acc with
    | none => some r
    | some b => if b.createdAt < r.createdAt then some r else acc) none

/-- Model of `models.VerifyOTP` (src/models/user.go, lines 124-156): select the
most recently created unverified challenge matching (email, otp);
return `none` when there is no match or `time.Now().After(ExpiresAt)`
(the handler surfaces `none` as 401 "Invalid or expired OTP"); on a
fresh unexpired match, `UPDATE otp_verifications SET verified = true
WHERE id = $1` and return the challenge. -/
def VerifyOTP (s : Store) (email otp : String) (now : Nat) :
    Store × Option OTPVerification :=
  match maxByCreated (s.otps.filter (otpMatches email otp)) with
  | none => (s, none)
  | some r =>
    if r.expiresAt < now then (s, none)
    else
      ({ s with
         otps := s.otps.map (fun q =>
           if q.id == r.id then { q with verified := true } else q) },
       some r)

/-- Model of `OTPVerification.Create` (src/models/user.go, lines 112-122): a
fresh unverified challenge whose expiry is 10 minutes (600 seconds)
after issuance. -/
def OTPVerification.Create (s : Store) (email otp : String)
    (newID now : Nat) : Store :=
  { s with
    otps := s.otps ++ [⟨newID, email, otp, now + 600, now, false⟩] }

/-- C5: when redemption matches a challenge but the current time is
past its expiry, `VerifyOTP` fails (returns no challenge, surfaced as
AuthError 401) and the store is completely unchanged — in particular
the matched challenge is not marked verified. -/
theorem verifyOTP_expired_not_marked
    (s : Store) (email otp : String) (now : Nat) (r : OTPVerification)
    (hm : maxByCreated (s.otps.filter (otpMatches email otp)) = some r)
    (hexp : r.expiresAt < now) :
    VerifyOTP s email otp now = (s, none) := by
  unfold VerifyOTP
  rw [hm]
  simp [hexp]

/-- Concrete instantiation of the expiry theorem: a challenge issued at
time 0 with the 10-minute (600 s) window is matched but rejected at
time 601, leaving the store unchanged. -/
theorem verifyOTP_expired_not_marked_witness :
    VerifyOTP (OTPVerification.Create emptyStore "a@b.com" "123456" 1 0)
      "a@b.com" "123456" 601 =
      (OTPVerification.Create emptyStore "a@b.com" "123456" 1 0, none) :=
  verifyOTP_expired_not_marked
    (OTPVerification.Create emptyStore "a@b.com" "123456" 1 0)
    "a@b.com" "123456" 601 ⟨1, "a@b.com", "123456", 600, 0, false⟩
    (by rfl) (by decide)

/-- A store holding two unverified challenges with the same email and
code, as produced by two consecutive send-otp calls (the source issues
the same default code and never invalidates prior challenges). -/
def twoChallengeStore : Store :=
  { users := [⟨1, "a@b.com", 0, 0⟩]
    otps := [⟨1, "a@b.com", "123456", 600, 0, false⟩,
             ⟨2, "a@b.com", "123456", 610, 10, false⟩]
    personal := []
    business := []
    trade := []
    financing := [] }

/-- C4 is false as stated: with two pre-existing unverified challenges
for the same (email, code) — and no new challenge issued in between —
the first redemption succeeds on the later challenge and the second
redemption succeeds again on the earlier one instead of failing. -/
theorem verifyOTP_single_use_counterexample :
    (VerifyOTP twoChallengeStore "a@b.com" "123456" 20).2 =
      some ⟨2, "a@b.com", "123456", 610, 10, false⟩ ∧
    (VerifyOTP (VerifyOTP twoChallengeStore "a@b.com" "123456" 20).1
      "a@b.com" "123456" 30).2 =
      some ⟨1, "a@b.com", "123456", 600, 0, false⟩ :=
  ⟨rfl, rfl⟩

/-- C4 (amended): when the matched challenge is the only unverified
challenge for the (email, code) pair, a successful redemption flips its
verified flag, so a second redemption with the same pair fails (returns
no challenge, surfaced as AuthError 401) and changes nothing. -/
theorem verifyOTP_single_use_unique_challenge
    (s : Store) (email otp : String) (t1 t2 : Nat) (r : OTPVerification)
    (hone : (s.otps.filter (otpMatches email otp)).length ≤ 1)
    (h1 : (VerifyOTP s email otp t1).2 = some r) :
    VerifyOTP (VerifyOTP s email otp t1).1 email otp t2 =
      ((VerifyOTP s email otp t1).1, none) := by
  unfold VerifyOTP at h1 ⊢
  cases hm : maxByCreated (s.otps.filter (otpMatches email otp)) with
  | none => rw [hm] at h1; cases h1
  | some w =>
    simp only [hm] at h1 ⊢
    by_cases hexp : w.expiresAt < t1
    · rw [if_pos hexp] at h1; cases h1
    · rw [if_neg hexp] at h1 ⊢
      have hfl : s.otps.filter (otpMatches email otp) = [w] := by
        cases hcase : s.otps.filter (otpMatches email otp) with
        | nil => rw [hcase] at hm; cases hm
        | cons x xs =>
          cases xs with
          | nil =>
            rw [hcase] at hm
            have hx : x = w := by simpa [maxByCreated] using hm
            rw [hx]
          | cons y ys =>
            rw [hcase] at hone
            simp at hone
      have hnew : ((s.otps.map (fun q =>
          if q.id == w.id then { q with verified := true } else q)).filter
            (otpMatches email otp)) = [] := by
        rw [List.filter_eq_nil_iff]
        intro b hb
        rcases List.mem_map.mp hb with ⟨q, hq, rfl⟩
        by_cases hid : (q.id == w.id) = true
        · simp [hid, otpMatches]
        · simp only [hid, if_false, Bool.false_eq_true]
          intro habs
          have hqf : q ∈ s.otps.filter (otpMatches email otp) :=
            List.mem_filter.mpr ⟨hq, habs⟩
          rw [hfl] at hqf
          have hqw : q = w := by simpa using hqf
          rw [hqw] at hid
          simp at hid
      simp only [hnew, maxByCreated, List.foldl_nil]

/-- Concrete instantiation of the amended single-use theorem: with one
challenge for the pair, redemption at time 5 succeeds and redemption at
time 6 fails with no further change. -/
theorem verifyOTP_single_use_unique_challenge_witness :
    VerifyOTP
      (VerifyOTP (OTPVerification.Create emptyStore "a@b.com" "123456" 1 0)
        "a@b.com" "123456" 5).1 "a@b.com" "123456" 6 =
      ((VerifyOTP (OTPVerification.Create emptyStore "a@b.com" "123456" 1 0)
        "a@b.com" "123456" 5).1, none) :=
  verifyOTP_single_use_unique_challenge
    (OTPVerification.Create emptyStore "a@b.com" "123456" 1 0)
    "a@b.com" "123456" 5 6 ⟨1, "a@b.com", "123456", 600, 0, false⟩
    (by decide) (by rfl)
